import Mathlib

/-!
Verification development for the response-cache subsystem of the
antonme/dnscrypt-proxy repository (files `plugin_cache.go`, query-log and
app glue).  The Go code is shallowly embedded: DNS messages become
structures, the in-memory store becomes an association list keyed by the
cache fingerprint, Go's `dns.RR` pointer slices become indices into an
explicit record heap (so that in-place TTL rewrites through shared
pointers are visible), and panics become `Option.none` results.
Absolute instants (`time.Time`) and durations are modelled as `Int`
seconds.  SHA-512/256 is abstracted injectively: the cache key is the
exact byte sequence the Go code feeds to the hash.
-/

namespace DnscryptCache

/-- A DNS resource record.  `rrtype` is the RR type code (6 = SOA),
`ttl` the record TTL in seconds, `minTtl` the SOA MINIMUM field
(meaningful only for SOA records).  In Go these records sit behind
pointers shared between messages; here messages refer to records by
index into a record heap (`List RR`). -/
structure RR where
  rrtype : Nat
  ttl : Nat
  minTtl : Nat
  deriving DecidableEq

/-- One entry of a DNS question section (`dns.Question`): raw wire-format
name bytes, qtype and qclass. -/
structure DNSQuestion where
  name : List Nat
  qtype : Nat
  qclass : Nat
  deriving DecidableEq

/-- A DNS message (`dns.Msg`), restricted to the fields the cache code
reads or writes.  `answer`, `ns` and `extra` hold indices into the
shared record heap, mirroring Go's `[]dns.RR` slices of pointers.
`edns0do` models `msg.IsEdns0().Do()` (presence of an OPT record with
the DO bit set). -/
structure Msg where
  id : Nat
  response : Bool
  truncated : Bool
  compress : Bool
  rcode : Nat
  edns0do : Bool
  question : List DNSQuestion
  answer : List Nat
  ns : List Nat
  extra : List Nat
  deriving DecidableEq

/-- The plugin return codes the cache subsystem assigns to
`pluginsState.action`.  `pass` is the initial "none" action; `synth` is
`PluginsReturnCodeSynth`; `flush` appears in the specification's request
state contract but is never assigned anywhere in the sources. -/
inductive PluginsReturnCode where
  | pass
  | synth
  | flush
  deriving DecidableEq

/-- The per-request plugin state (`PluginsState`), restricted to the
cache-facing fields of the specification's request-state contract.  The
struct declaration itself is not part of the provided sources; the field
list follows the specification.  `cacheForcedMaxTTL` and `flushEnabled`
are listed by the specification among the fields the cache reads, but
no provided source function ever reads them. -/
structure PluginsState where
  dnssec : Bool
  cacheForced : Bool
  cacheForcedMaxTTL : Int
  forceRequest : Bool
  flushEnabled : Bool
  cacheMinTTL : Int
  cacheMaxTTL : Int
  cacheNegMinTTL : Int
  cacheNegMaxTTL : Int
  cacheSize : Int
  synthResponse : Option Msg
  action : PluginsReturnCode
  cacheHit : Bool
  cachedTTL : Int
  sessionData : List (String × Msg)
  deriving DecidableEq

/-- A cached response: absolute expiration instant plus the stored
message (`CachedResponse` in `plugin_cache.go`). -/
structure CachedResponse where
  expiration : Int
  msg : Msg
  deriving DecidableEq

/-- The cache store.  The Go code uses `lru.ARCCache`; the claims under
verification concern only membership, lookup and insertion, so the store
is embedded as an association list from cache key to entry (at most one
entry per key, maintained by `storeAdd`).  ARC eviction only removes
entries and is not modelled. -/
abbrev Store := List (List Nat × CachedResponse)

/-- Embeds `cache.Get` and `cache.Peek`: lookup by key. -/
def storeGet (store : Store) (k : List Nat) : Option CachedResponse :=
  (store.find? (fun e => e.1 == k)).map Prod.snd

/-- Embeds `cache.Add`: insert, replacing any previous entry for the key. -/
def storeAdd (store : Store) (k : List Nat) (v : CachedResponse) : Store :=
  (k, v) :: store.filter (fun e => !(e.1 == k))

/-- The mutable state shared by both plugins: the (lazily created)
store, plus the record heap that models the Go heap of `dns.RR`
objects referenced by stored and in-flight messages. -/
structure CacheState where
  cache : Option Store
  heap : List RR
  deriving DecidableEq

/-- Modelled from the spec: `NormalizeRawQName` is declared outside the
provided sources; per the data-model section, normalization lowercases
ASCII letters of the raw wire-format name in place. -/
def NormalizeRawQName (name : List Nat) : List Nat :=
  name.map (fun b => if 65 ≤ b ∧ b ≤ 90 then b + 32 else b)

/-- Little-endian bytes of a 16-bit value (`binary.LittleEndian.PutUint16`). -/
def le16 (n : Nat) : List Nat :=
  [n % 256, n / 256 % 256]

/-- Embeds `computeCacheKey` from `plugin_cache.go`.  The SHA-512/256 hash is
abstracted injectively (collisions are treated as impossible by the
code), so the key is the exact hash input: the five scratch bytes
(little-endian qtype, little-endian qclass, DNSSEC bit) followed by the
normalized raw qname.  When the plugin state is absent the DNSSEC bit
comes from the message's EDNS0 DO bit.  The unconditional
`msg.Question[0]` access panics on an empty question section, modelled
as `none`. -/
def computeCacheKey (pluginsState : Option PluginsState) (msg : Msg) :
    Option (List Nat) :=
  let dnssec :=
    match pluginsState with
    | none => msg.edns0do
    | some ps => ps.dnssec
  match msg.question with
  | [] => none
  | question :: _ =>
    some (le16 question.qtype ++ le16 question.qclass ++
      [if dnssec then 1 else 0] ++ NormalizeRawQName question.name)

/-- The value `max 0 (expiration - now)`, the per-record TTL written by the
TTL helper (seconds). -/
def clampTTL (expiration now : Int) : Nat :=
  (expiration - now).toNat

/-- TTL rewrite of a single record: the TTL becomes
`max 0 (expiration - now)`; for SOA records (type 6) the MINIMUM field
is clamped identically. -/
def updateTTLrr (expiration now : Int) (rr : RR) : RR :=
  { rr with
    ttl := clampTTL expiration now,
    minTtl := if rr.rrtype = 6 then clampTTL expiration now else rr.minTtl }

/-- Modelled from the spec: `updateTTL` (the TTL helper) is declared
outside the provided sources; per the TTL-helper section it rewrites
every resource record of the message — Answer, Authority and Additional
sections — in place against the absolute expiration instant.  The
in-place writes act on the shared record heap. -/
def updateTTL (heap : List RR) (msg : Msg) (expiration now : Int) : List RR :=
  (msg.answer ++ msg.ns ++ msg.extra).foldl
    (fun h i =>
      match h.get? i with
      | some rr => h.set i (updateTTLrr expiration now rr)
      | none => h)
    heap

/-- Clamp `v` into the interval `[lo, hi]`. -/
def clampInt (lo hi v : Int) : Int :=
  if v < lo then lo else if v > hi then hi else v

/-- Minimum of a list of TTLs, 0 when empty. -/
def minTTLofList : List Nat → Nat
  | [] => 0
  | x :: xs => xs.foldl Nat.min x

/-- The TTLs of the records a message refers to, read through the heap. -/
def msgTTLs (heap : List RR) (m : Msg) : List Nat :=
  (m.answer ++ m.ns ++ m.extra).filterMap (fun i => (heap.get? i).map RR.ttl)

/-- SOA MINIMUM found in the authority section, 0 when absent. -/
def soaMin (heap : List RR) (ids : List Nat) : Nat :=
  match (ids.filterMap (fun i => heap.get? i)).find? (fun rr => rr.rrtype == 6) with
  | some rr => rr.minTtl
  | none => 0

/-- Modelled from the spec: `getMinTTL` (the effective-TTL operator) is
declared outside the provided sources; per the TTL-helper section, a
NOERROR response with at least one answer record uses the minimum answer
TTL clamped to `[minTTL, maxTTL]`, and any other admissible response
uses the SOA MINIMUM (0 when no SOA is present) clamped to
`[negMinTTL, negMaxTTL]`. -/
def getMinTTL (heap : List RR) (msg : Msg)
    (minTTL maxTTL negMinTTL negMaxTTL : Int) : Int :=
  if msg.rcode = 0 ∧ msg.answer ≠ [] then
    clampInt minTTL maxTTL (Int.ofNat (minTTLofList (msgTTLs heap { msg with ns := [], extra := [] })))
  else
    clampInt negMinTTL negMaxTTL (Int.ofNat (soaMin heap msg.ns))

/-- The synthetic response built by the reader: a copy of the stored
message with the requester's transaction id, the response bit set,
compression enabled and the requester's question section substituted
(`synth := cached.msg; synth.Id = ...` in `PluginCache.Eval`).  The
record-index lists are copied unchanged, so the synthetic response
shares its resource records with the stored entry, as the Go shallow
struct copy does. -/
def mkSynth (cached : CachedResponse) (msg : Msg) : Msg :=
  { cached.msg with
    id := msg.id
    response := true
    compress := true
    question := msg.question }

/-- The four assignments publishing a synthetic response
(`pluginsState.synthResponse/action/cacheHit/cachedTTL` at the end of
`PluginCache.Eval`). -/
def publishState (ps : PluginsState) (synth : Msg) (expiration now : Int) :
    PluginsState :=
  { ps with
    synthResponse := some synth
    action := PluginsReturnCode.synth
    cacheHit := true
    cachedTTL := expiration - now }

/-- Embeds `PluginCache.Eval` (the reader plugin) from `plugin_cache.go`.
`now` is the instant of the call (`time.Now()`); `none` models a panic
(empty question section in `computeCacheKey`). -/
def PluginCache.Eval (now : Int) (st : CacheState) (ps : PluginsState)
    (msg : Msg) : Option (CacheState × PluginsState) :=
  match computeCacheKey (some ps) msg with
  | none => none
  | some cacheKey =>
    match st.cache with
    | none => some (st, ps)
    | some store =>
      match storeGet store cacheKey with
      | none => some (st, ps)
      | some cached =>
        let synth := mkSynth cached msg
        if cached.expiration < now then
          if ps.cacheForced = false ∨ ps.forceRequest = true then
            some (st, { ps with sessionData := ("stale", synth) :: ps.sessionData })
          else
            some (st, publishState { ps with forceRequest := true } synth
              cached.expiration now)
        else
          some ({ st with heap := updateTTL st.heap cached.msg cached.expiration now },
            publishState ps synth cached.expiration now)

/-- The error surfaced by the writer plugin: `lru.NewARC` fails on a
non-positive capacity. -/
inductive EvalError where
  | configError
  deriving DecidableEq

/-- Embeds `PluginCacheResponse.Eval` (the writer plugin) from
`plugin_cache.go`: admissibility guards, key and effective-TTL
computation, lazy store construction, insertion, and the trailing
`updateTTL` on the outbound message (whose records the freshly stored
entry shares).  `none` models a panic; the third component is the Go
error return. -/
def PluginCacheResponse.Eval (now : Int) (st : CacheState) (ps : PluginsState)
    (msg : Msg) : Option (CacheState × PluginsState × Option EvalError) :=
  if msg.rcode ≠ 0 ∧ msg.rcode ≠ 3 ∧ msg.rcode ≠ 9 then
    some (st, ps, none)
  else if msg.truncated = true then
    some (st, ps, none)
  else
    match computeCacheKey (some ps) msg with
    | none => none
    | some cacheKey =>
      let ttl := getMinTTL st.heap msg ps.cacheMinTTL ps.cacheMaxTTL
        ps.cacheNegMinTTL ps.cacheNegMaxTTL
      let ps2 := { ps with cachedTTL := ttl }
      let cachedResponse : CachedResponse := { expiration := now + ttl, msg := msg }
      if st.cache = none ∧ ps.cacheSize ≤ 0 then
        some (st, ps2, some EvalError.configError)
      else
        some ({ cache := some (storeAdd (st.cache.getD []) cacheKey cachedResponse),
                heap := updateTTL st.heap msg cachedResponse.expiration now },
          ps2, none)

/-- The snapshot header (`CacheFileHeader`), restricted to the fields
`LoadCache` inspects. -/
structure CacheFileHeader where
  protoVersion : Nat
  itemsCount : Int
  deriving DecidableEq

/-- One snapshot payload record (`SavedResponse`).  `packet` is the
result of unpacking the wire bytes: `none` models a packet on which
`msg.Unpack` fails. -/
structure SavedResponse where
  expiration : Int
  frequent : Bool
  packet : Option Msg
  deriving DecidableEq

/-- Errors surfaced by `LoadCache`: malformed header JSON, unsupported
protocol version, a gob decode error, a DNS unpack failure, or
`lru.NewARC` rejecting a non-positive capacity. -/
inductive LoadError where
  | jsonError
  | unsupportedVersion
  | decodeError
  | unpackError
  | configError
  deriving DecidableEq

/-- The decode loop of `CachedResponses.LoadCache`: records are decoded
until EOF (end of list); a `none` item models a gob decode error.  Each
decoded record is unpacked, its TTLs rewritten when still unexpired,
its key recomputed from the unpacked message (with a `nil` plugin
state), and added; a frequent record is added a second time (an ARC
promotion, idempotent here).  The outer `none` models the
`msg.Question[0]` panic inside `computeCacheKey` for a packet with an
empty question section. -/
def loadLoop (startTime : Int) (st : CacheState) :
    List (Option SavedResponse) → Option (CacheState × Option LoadError)
  | [] => some (st, none)
  | none :: _ => some (st, some LoadError.decodeError)
  | some savedResponse :: rest =>
    match savedResponse.packet with
    | none => some (st, some LoadError.unpackError)
    | some msg =>
      let cachedResponse : CachedResponse :=
        { expiration := savedResponse.expiration, msg := msg }
      let heap :=
        if startTime < cachedResponse.expiration then
          updateTTL st.heap msg cachedResponse.expiration startTime
        else st.heap
      match computeCacheKey none msg with
      | none => none
      | some cachedKey =>
        let store := storeAdd (st.cache.getD []) cachedKey cachedResponse
        let store :=
          if savedResponse.frequent then storeAdd store cachedKey cachedResponse
          else store
        loadLoop startTime { cache := some store, heap := heap } rest

/-- Embeds `CachedResponses.LoadCache` from `plugin_cache.go`: read the
newline-terminated JSON header (`none` models an unmarshal failure),
reject any protocol version other than 1, and when the header announces
items, lazily create the store and run the decode loop.  `startTime` is
the `time.Now()` taken on entry, also used as the current instant for
the TTL rewrites inside the loop. -/
def CachedResponses.LoadCache (startTime : Int) (st : CacheState)
    (header : Option CacheFileHeader) (items : List (Option SavedResponse))
    (cacheSize : Int) : Option (CacheState × Option LoadError) :=
  match header with
  | none => some (st, some LoadError.jsonError)
  | some header =>
    if header.protoVersion ≠ 1 then
      some (st, some LoadError.unsupportedVersion)
    else if header.itemsCount > 0 then
      if st.cache = none ∧ cacheSize ≤ 0 then
        some (st, some LoadError.configError)
      else
        loadLoop startTime { st with cache := some (st.cache.getD []) } items
    else
      some (st, none)

/-- Embeds `PluginCacheResponse.Init`: when persistence is enabled it runs
`LoadCache` and merely logs any error, returning success either way, so
the proxy continues with whatever the load left in the store. -/
def PluginCacheResponse.Init (cachePersistent : Bool) (startTime : Int)
    (st : CacheState) (header : Option CacheFileHeader)
    (items : List (Option SavedResponse)) (cacheSize : Int) :
    Option CacheState :=
  if cachePersistent then
    match CachedResponses.LoadCache startTime st header items cacheSize with
    | none => none
    | some (st1, _) => some st1
  else
    some st

/-- A response the writer plugin may store: RCODE in
{NOERROR, NXDOMAIN, NOTAUTH} and truncation bit clear. -/
def admissibleMsg (msg : Msg) : Prop :=
  (msg.rcode = 0 ∨ msg.rcode = 3 ∨ msg.rcode = 9) ∧ msg.truncated = false

instance (msg : Msg) : Decidable (admissibleMsg msg) := by
  unfold admissibleMsg
  exact inferInstance

/-- All entries of a store are admissible responses. -/
def storeAdmissible (store : Store) : Prop :=
  ∀ e ∈ store, admissibleMsg e.2.msg

instance (store : Store) : Decidable (storeAdmissible store) :=
  List.decidableBAll _ store

/-- Lifts `storeAdmissible` to the lazily created store. -/
def cacheAdmissible : Option Store → Prop
  | none => True
  | some store => storeAdmissible store

instance : (c : Option Store) → Decidable (cacheAdmissible c)
  | none => isTrue trivial
  | some store => inferInstanceAs (Decidable (storeAdmissible store))

/-! Concrete fixtures used by witnesses and counterexamples. -/

/-- Question `example.com. A IN` (wire-format name bytes). -/
def q1 : DNSQuestion :=
  { name := [7, 101, 120, 97, 109, 112, 108, 101, 3, 99, 111, 109, 0],
    qtype := 1, qclass := 1 }

/-- An A record with a 300-second TTL, living at heap index 0. -/
def rr1 : RR := { rrtype := 1, ttl := 300, minTtl := 0 }

/-- A NOERROR response for `q1` whose single answer record is heap
index 0. -/
def msg1 : Msg :=
  { id := 7, response := false, truncated := false, compress := false,
    rcode := 0, edns0do := false, question := [q1], answer := [0],
    ns := [], extra := [] }

/-- Baseline request state: forced-cache enabled, `forceRequest` clear,
`cacheForcedMaxTTL` configured to a positive bound of 10 seconds. -/
def psBase : PluginsState :=
  { dnssec := false, cacheForced := true, cacheForcedMaxTTL := 10,
    forceRequest := false, flushEnabled := false, cacheMinTTL := 60,
    cacheMaxTTL := 86400, cacheNegMinTTL := 60, cacheNegMaxTTL := 600,
    cacheSize := 16, synthResponse := none, action := PluginsReturnCode.pass,
    cacheHit := false, cachedTTL := 0, sessionData := [] }

/-- Request state with forced-cache disabled. -/
def psNoForce : PluginsState := { psBase with cacheForced := false }

/-- The cache key of `msg1`. -/
def key1 : List Nat := (computeCacheKey (some psBase) msg1).getD []

/-- A cache entry for `msg1` that expired at instant 0. -/
def cached1 : CachedResponse := { expiration := 0, msg := msg1 }

/-- State holding the expired entry `cached1` and the record heap. -/
def st1 : CacheState := { cache := some [(key1, cached1)], heap := [rr1] }

/-- A cache entry for `msg1` expiring at instant 700 (still fresh at
instant 500). -/
def cached3 : CachedResponse := { expiration := 700, msg := msg1 }

/-- State holding the fresh entry `cached3`. -/
def st3 : CacheState := { cache := some [(key1, cached3)], heap := [rr1] }

/-- Question `_esni.com. TXT IN`: the owner name's first label is
`_esni` (bytes 95, 101, 115, 110, 105 after the length byte). -/
def q5 : DNSQuestion :=
  { name := [5, 95, 101, 115, 110, 105, 3, 99, 111, 109, 0],
    qtype := 16, qclass := 1 }

/-- A response for the `_esni` question. -/
def msg5 : Msg :=
  { id := 3, response := false, truncated := false, compress := false,
    rcode := 0, edns0do := false, question := [q5], answer := [0],
    ns := [], extra := [] }

/-- The cache key of `msg5`. -/
def key5 : List Nat := (computeCacheKey (some psBase) msg5).getD []

/-- An expired cache entry for the `_esni` question. -/
def cached5 : CachedResponse := { expiration := 0, msg := msg5 }

/-- State holding the expired `_esni` entry. -/
def st5 : CacheState := { cache := some [(key5, cached5)], heap := [rr1] }

/-- The 7 bytes of the flush-sentinel qname tag `flush\@`
(f, l, u, s, h, backslash, at-sign). -/
def flushTag : List Nat := [102, 108, 117, 115, 104, 92, 64]

/-- Question whose qname is `q1`'s name prefixed by the flush tag. -/
def qFlush : DNSQuestion :=
  { name := flushTag ++ q1.name, qtype := 1, qclass := 1 }

/-- An admissible upstream response whose qname carries the flush tag. -/
def msgFlush : Msg :=
  { id := 9, response := true, truncated := false, compress := false,
    rcode := 0, edns0do := false, question := [qFlush], answer := [0],
    ns := [], extra := [] }

/-- Request state with flush enabled. -/
def psFlush : PluginsState := { psBase with flushEnabled := true }

/-- The cache key of the flush-tagged qname. -/
def keyFlush : List Nat := (computeCacheKey (some psFlush) msgFlush).getD []

/-- State whose store holds the entry for the stripped qname (`key1`),
the one a flush sentinel would be expected to evict. -/
def st6 : CacheState := { cache := some [(key1, cached1)], heap := [rr1] }

/-- An inadmissible (SERVFAIL) response with an empty question
section. -/
def msgNoQ : Msg :=
  { id := 1, response := true, truncated := false, compress := false,
    rcode := 2, edns0do := false, question := [], answer := [],
    ns := [], extra := [] }

/-- An admissible (NOERROR) response with an empty question section. -/
def msgNoQA : Msg := { msgNoQ with rcode := 0 }

/-- State with no store yet. -/
def stEmpty : CacheState := { cache := none, heap := [rr1] }

/-- A version-1 snapshot header announcing one item. -/
def hdr1 : CacheFileHeader := { protoVersion := 1, itemsCount := 1 }

/-- A snapshot header with an unsupported protocol version. -/
def hdrBad : CacheFileHeader := { protoVersion := 2, itemsCount := 5 }

/-- A snapshot record for `msg1` that expired at instant 0. -/
def saved1 : SavedResponse :=
  { expiration := 0, frequent := false, packet := some msg1 }

/-- Membership in `storeAdd`: the new pair or a surviving old entry. -/
theorem mem_storeAdd {store : Store} {k : List Nat} {v : CachedResponse}
    {e : List Nat × CachedResponse} (h : e ∈ storeAdd store k v) :
    e = (k, v) ∨ e ∈ store := by
  unfold storeAdd at h
  rcases List.mem_cons.mp h with h | h
  · exact Or.inl h
  · exact Or.inr (List.mem_filter.mp h).1

/-- Lookup after `storeAdd` at the inserted key. -/
theorem storeGet_storeAdd_self (store : Store) (k : List Nat)
    (v : CachedResponse) : storeGet (storeAdd store k v) k = some v := by
  unfold storeGet storeAdd
  simp [List.find?_cons]

/-- Lookup after `storeAdd` at any other key is unchanged. -/
theorem storeGet_storeAdd_ne (store : Store) (k k2 : List Nat)
    (v : CachedResponse) (hne : k2 ≠ k) :
    storeGet (storeAdd store k v) k2 = storeGet store k2 := by
  unfold storeGet storeAdd
  rw [List.find?_cons_of_neg _ (by simp [Ne.symm hne])]
  congr 1
  induction store with
  | nil => rfl
  | cons e rest ih =>
    rw [List.filter_cons]
    by_cases he : e.1 = k
    · rw [if_neg (by simp [he]),
        List.find?_cons_of_neg _ (by simp [he, Ne.symm hne])]
      exact ih
    · rw [if_pos (by simp [he])]
      by_cases h2 : e.1 = k2
      · rw [List.find?_cons_of_pos _ (by simp [h2]),
          List.find?_cons_of_pos _ (by simp [h2])]
      · rw [List.find?_cons_of_neg _ (by simp [h2]),
          List.find?_cons_of_neg _ (by simp [h2])]
        exact ih

/-! Claim theorems. -/

/-- C1 (amended): on a reader hit whose entry has expired, the stale
entry is delivered as if fresh exactly when `cacheForced` is enabled
and `forceRequest` has not yet been set for this request; no
`cacheForcedMaxTTL` bound is consulted, and on a forced delivery the
published state has `forceRequest = true`. -/
theorem c1_forced_stale_gating
    (now : Int) (st : CacheState) (ps : PluginsState) (msg : Msg)
    (cacheKey : List Nat) (store : Store) (cached : CachedResponse)
    (hkey : computeCacheKey (some ps) msg = some cacheKey)
    (hc : st.cache = some store)
    (hget : storeGet store cacheKey = some cached)
    (hexp : cached.expiration < now)
    (hhit : ps.cacheHit = false) :
    ∃ ps2,
      PluginCache.Eval now st ps msg = some (st, ps2) ∧
      ((ps2.cacheHit = true ∧ ps2.forceRequest = true ∧
          ps2.synthResponse = some (mkSynth cached msg) ∧
          ps2.action = PluginsReturnCode.synth) ↔
        (ps.cacheForced = true ∧ ps.forceRequest = false)) := by
  simp only [PluginCache.Eval, hkey, hc, hget]
  rw [if_pos hexp]
  by_cases hbail : ps.cacheForced = false ∨ ps.forceRequest = true
  · rw [if_pos hbail]
    refine ⟨_, rfl, ?_⟩
    constructor
    · rintro ⟨h1, -, -, -⟩
      have h2 : ps.cacheHit = true := h1
      rw [hhit] at h2
      exact Bool.noConfusion h2
    · rintro ⟨hf, hr⟩
      rcases hbail with h | h
      · rw [hf] at h
        exact Bool.noConfusion h
      · rw [hr] at h
        exact Bool.noConfusion h
  · rw [if_neg hbail]
    push_neg at hbail
    obtain ⟨hf, hr⟩ := hbail
    have hf2 : ps.cacheForced = true := by simpa using hf
    have hr2 : ps.forceRequest = false := by simpa using hr
    refine ⟨_, rfl, ?_⟩
    constructor
    · intro _
      exact ⟨hf2, hr2⟩
    · intro _
      exact ⟨rfl, rfl, rfl, rfl⟩

/-- Witness for C1: a concrete forced-stale delivery. -/
theorem c1_forced_stale_gating_witness :
    ∃ ps2,
      PluginCache.Eval 100 st1 psBase msg1 = some (st1, ps2) ∧
      ((ps2.cacheHit = true ∧ ps2.forceRequest = true ∧
          ps2.synthResponse = some (mkSynth cached1 msg1) ∧
          ps2.action = PluginsReturnCode.synth) ↔
        (psBase.cacheForced = true ∧ psBase.forceRequest = false)) :=
  c1_forced_stale_gating 100 st1 psBase msg1 key1 [(key1, cached1)] cached1
    (by decide) rfl (by decide) (by decide) rfl

/-- C1 counterexample: `cacheForcedMaxTTL` is configured to a positive
10-second bound and `now - expiration = 100` exceeds it, so the claim
says the stale entry is not delivered; the code delivers it as fresh
anyway. -/
theorem c1_counterexample :
    psBase.cacheForcedMaxTTL > 0 ∧
    (100 : Int) - cached1.expiration > psBase.cacheForcedMaxTTL ∧
    (PluginCache.Eval 100 st1 psBase msg1).map
        (fun r => (r.2.action, r.2.cacheHit, r.2.forceRequest)) =
      some (PluginsReturnCode.synth, true, true) :=
  ⟨by decide, by decide, by decide⟩

/-- C2: on an expired hit where forced-cache does not apply
(`cacheForced` disabled, or `forceRequest` already set), the reader
stashes the synthetic response under session key "stale" and returns
without short-circuiting: `synthResponse`, `action`, `cacheHit` and
`cachedTTL` are unchanged, as are the store and the record heap. -/
theorem c2_stale_stash
    (now : Int) (st : CacheState) (ps : PluginsState) (msg : Msg)
    (cacheKey : List Nat) (store : Store) (cached : CachedResponse)
    (hkey : computeCacheKey (some ps) msg = some cacheKey)
    (hc : st.cache = some store)
    (hget : storeGet store cacheKey = some cached)
    (hexp : cached.expiration < now)
    (hbail : ps.cacheForced = false ∨ ps.forceRequest = true) :
    PluginCache.Eval now st ps msg =
      some (st, { ps with
        sessionData := ("stale", mkSynth cached msg) :: ps.sessionData }) ∧
    ∀ ps2 : PluginsState,
      PluginCache.Eval now st ps msg = some (st, ps2) →
      ps2.synthResponse = ps.synthResponse ∧ ps2.action = ps.action ∧
        ps2.cacheHit = ps.cacheHit ∧ ps2.cachedTTL = ps.cachedTTL := by
  have h1 : PluginCache.Eval now st ps msg =
      some (st, { ps with
        sessionData := ("stale", mkSynth cached msg) :: ps.sessionData }) := by
    simp only [PluginCache.Eval, hkey, hc, hget]
    rw [if_pos hexp, if_pos hbail]
  refine ⟨h1, ?_⟩
  intro ps2 h2
  rw [h1] at h2
  simp only [Option.some.injEq, Prod.mk.injEq] at h2
  obtain ⟨-, h3⟩ := h2
  rw [← h3]
  exact ⟨rfl, rfl, rfl, rfl⟩

/-- Witness for C2: a concrete stale hit with forced-cache disabled. -/
theorem c2_stale_stash_witness :
    PluginCache.Eval 100 st1 psNoForce msg1 =
      some (st1, { psNoForce with
        sessionData := ("stale", mkSynth cached1 msg1) :: psNoForce.sessionData }) ∧
    ∀ ps2 : PluginsState,
      PluginCache.Eval 100 st1 psNoForce msg1 = some (st1, ps2) →
      ps2.synthResponse = psNoForce.synthResponse ∧
        ps2.action = psNoForce.action ∧
        ps2.cacheHit = psNoForce.cacheHit ∧
        ps2.cachedTTL = psNoForce.cachedTTL :=
  c2_stale_stash 100 st1 psNoForce msg1 key1 [(key1, cached1)] cached1
    (by decide) rfl (by decide) (by decide) (Or.inl rfl)

/-- C3 (amended): a lookup never touches the Store itself — the stored
entry value is unchanged, so its message header fields are unchanged,
and the synthetic response is a copy — but on a fresh hit the TTL
helper is applied to the record heap shared with the stored entry, so
the TTLs of the stored message's resource records are rewritten in
place. -/
theorem c3_lookup_mutation
    (now : Int) (st : CacheState) (ps : PluginsState) (msg : Msg)
    (cacheKey : List Nat) (store : Store) (cached : CachedResponse)
    (hkey : computeCacheKey (some ps) msg = some cacheKey)
    (hc : st.cache = some store)
    (hget : storeGet store cacheKey = some cached)
    (hfresh : ¬ cached.expiration < now) :
    PluginCache.Eval now st ps msg =
      some ({ st with heap := updateTTL st.heap cached.msg cached.expiration now },
        publishState ps (mkSynth cached msg) cached.expiration now) ∧
    (mkSynth cached msg).answer = cached.msg.answer ∧
    (mkSynth cached msg).ns = cached.msg.ns ∧
    (mkSynth cached msg).extra = cached.msg.extra := by
  refine ⟨?_, rfl, rfl, rfl⟩
  simp only [PluginCache.Eval, hkey, hc, hget]
  rw [if_neg hfresh]

/-- Witness for C3 at a concrete fresh lookup. -/
theorem c3_lookup_mutation_witness :
    PluginCache.Eval 500 st3 psBase msg1 =
      some ({ st3 with
          heap := updateTTL st3.heap cached3.msg cached3.expiration 500 },
        publishState psBase (mkSynth cached3 msg1) cached3.expiration 500) ∧
    (mkSynth cached3 msg1).answer = cached3.msg.answer ∧
    (mkSynth cached3 msg1).ns = cached3.msg.ns ∧
    (mkSynth cached3 msg1).extra = cached3.msg.extra :=
  c3_lookup_mutation 500 st3 psBase msg1 key1 [(key1, cached3)] cached3
    (by decide) rfl (by decide) (by decide)

/-- C3 counterexample: at instant 500 a fresh lookup of the entry
expiring at 700 rewrites the stored answer record in place — heap
slot 0, referenced by the stored message, goes from TTL 300 to
TTL 200 — contradicting the claim that a lookup changes no stored
resource-record TTL. -/
theorem c3_counterexample :
    (storeGet (st3.cache.getD []) key1).map (fun c => c.msg.answer) =
      some [0] ∧
    st3.heap.get? 0 = some { rrtype := 1, ttl := 300, minTtl := 0 } ∧
    (PluginCache.Eval 500 st3 psBase msg1).map (fun r => r.1.heap.get? 0) =
      some (some { rrtype := 1, ttl := 200, minTtl := 0 }) :=
  ⟨by decide, by decide, by decide⟩

/-- C4 (amended): on a forced-stale delivery the TTL helper is not
applied at all — the record heap is left untouched, so the delivered
per-record TTLs are the stored records' current TTLs — `forceRequest`
is set, and the reported `cachedTTL = expiration - now` is negative. -/
theorem c4_forced_no_ttl_rewrite
    (now : Int) (st : CacheState) (ps : PluginsState) (msg : Msg)
    (cacheKey : List Nat) (store : Store) (cached : CachedResponse)
    (hkey : computeCacheKey (some ps) msg = some cacheKey)
    (hc : st.cache = some store)
    (hget : storeGet store cacheKey = some cached)
    (hexp : cached.expiration < now)
    (hf : ps.cacheForced = true)
    (hr : ps.forceRequest = false) :
    PluginCache.Eval now st ps msg =
      some (st, publishState { ps with forceRequest := true }
        (mkSynth cached msg) cached.expiration now) ∧
    msgTTLs st.heap (mkSynth cached msg) = msgTTLs st.heap cached.msg ∧
    (publishState { ps with forceRequest := true } (mkSynth cached msg)
        cached.expiration now).cachedTTL < 0 := by
  have hbail : ¬ (ps.cacheForced = false ∨ ps.forceRequest = true) := by
    simp [hf, hr]
  refine ⟨?_, rfl, ?_⟩
  · simp only [PluginCache.Eval, hkey, hc, hget]
    rw [if_pos hexp, if_neg hbail]
  · show cached.expiration - now < 0
    omega

/-- Witness for C4 at a concrete forced-stale delivery. -/
theorem c4_forced_no_ttl_rewrite_witness :
    PluginCache.Eval 100 st1 psBase msg1 =
      some (st1, publishState { psBase with forceRequest := true }
        (mkSynth cached1 msg1) cached1.expiration 100) ∧
    msgTTLs st1.heap (mkSynth cached1 msg1) = msgTTLs st1.heap cached1.msg ∧
    (publishState { psBase with forceRequest := true } (mkSynth cached1 msg1)
        cached1.expiration 100).cachedTTL < 0 :=
  c4_forced_no_ttl_rewrite 100 st1 psBase msg1 key1 [(key1, cached1)] cached1
    (by decide) rfl (by decide) (by decide) rfl rfl

/-- C4 counterexample: the forced-stale delivery of `cached1` carries
the stored record's TTL of 300 seconds, not the claimed 0. -/
theorem c4_counterexample :
    (PluginCache.Eval 100 st1 psBase msg1).map
        (fun r => (r.2.synthResponse.map (fun m => msgTTLs r.1.heap m),
          r.2.forceRequest)) =
      some (some [300], true) ∧ [(300 : Nat)] ≠ [0] :=
  ⟨by decide, by decide⟩

/-- C5 (amended): the reader has no `_esni` exception — a stale entry
whose qname's first label is `_esni` is served forced-stale exactly
like any other name whenever `cacheForced` is enabled and
`forceRequest` is not yet set. -/
theorem c5_esni_forced_anyway
    (now : Int) (st : CacheState) (ps : PluginsState) (msg : Msg)
    (cacheKey : List Nat) (store : Store) (cached : CachedResponse)
    (q : DNSQuestion) (qrest : List DNSQuestion)
    (_hq : msg.question = q :: qrest)
    (_hesni : (q.name.drop 1).take 5 = [95, 101, 115, 110, 105])
    (hkey : computeCacheKey (some ps) msg = some cacheKey)
    (hc : st.cache = some store)
    (hget : storeGet store cacheKey = some cached)
    (hexp : cached.expiration < now)
    (hf : ps.cacheForced = true)
    (hr : ps.forceRequest = false) :
    PluginCache.Eval now st ps msg =
      some (st, publishState { ps with forceRequest := true }
        (mkSynth cached msg) cached.expiration now) := by
  have hbail : ¬ (ps.cacheForced = false ∨ ps.forceRequest = true) := by
    simp [hf, hr]
  simp only [PluginCache.Eval, hkey, hc, hget]
  rw [if_pos hexp, if_neg hbail]

/-- Witness for C5 at the concrete `_esni.com.` scenario. -/
theorem c5_esni_forced_anyway_witness :
    PluginCache.Eval 60 st5 psBase msg5 =
      some (st5, publishState { psBase with forceRequest := true }
        (mkSynth cached5 msg5) cached5.expiration 60) :=
  c5_esni_forced_anyway 60 st5 psBase msg5 key5 [(key5, cached5)] cached5
    q5 [] rfl (by decide) (by decide) rfl (by decide) (by decide) rfl rfl

/-- C5 counterexample: the qname `_esni.com.` begins with the `_esni`
label, forced-cache is on, `forceRequest` is clear, and 60 seconds
after a 0-second expiration the code delivers the stale entry as fresh
instead of only stashing it, contrary to the claimed exception. -/
theorem c5_counterexample :
    (q5.name.drop 1).take 5 = [95, 101, 115, 110, 105] ∧
    psBase.cacheForced = true ∧ psBase.forceRequest = false ∧
    (PluginCache.Eval 60 st5 psBase msg5).map
        (fun r => (r.2.action, r.2.cacheHit, r.2.forceRequest)) =
      some (PluginsReturnCode.synth, true, true) :=
  ⟨by decide, rfl, rfl, by decide⟩

/-- C6 (amended): the writer has no flush-sentinel handling — an
admissible response whose qname begins with the `flush\@` tag is
cached under the key of its full (unstripped) qname like any other
response, every other key's entry is untouched, no entry is removed,
and `action` is unchanged. -/
theorem c6_no_flush_handling
    (now : Int) (st : CacheState) (ps : PluginsState) (msg : Msg)
    (cacheKey : List Nat) (store : Store)
    (_hflush : ps.flushEnabled = true)
    (hadm : admissibleMsg msg)
    (hkey : computeCacheKey (some ps) msg = some cacheKey)
    (hc : st.cache = some store) :
    ∃ st2 ps2,
      PluginCacheResponse.Eval now st ps msg = some (st2, ps2, none) ∧
      ps2.action = ps.action ∧
      storeGet (st2.cache.getD []) cacheKey =
        some { expiration := now + getMinTTL st.heap msg ps.cacheMinTTL
                 ps.cacheMaxTTL ps.cacheNegMinTTL ps.cacheNegMaxTTL,
               msg := msg } ∧
      ∀ k2, k2 ≠ cacheKey →
        storeGet (st2.cache.getD []) k2 = storeGet store k2 := by
  obtain ⟨hrc, htr⟩ := hadm
  have hg1 : ¬ (msg.rcode ≠ 0 ∧ msg.rcode ≠ 3 ∧ msg.rcode ≠ 9) := by tauto
  have hg2 : ¬ (msg.truncated = true) := by simp [htr]
  refine ⟨⟨some (storeAdd store cacheKey
        ⟨now + getMinTTL st.heap msg ps.cacheMinTTL ps.cacheMaxTTL
            ps.cacheNegMinTTL ps.cacheNegMaxTTL, msg⟩),
      updateTTL st.heap msg
        (now + getMinTTL st.heap msg ps.cacheMinTTL ps.cacheMaxTTL
          ps.cacheNegMinTTL ps.cacheNegMaxTTL) now⟩,
    { ps with cachedTTL := getMinTTL st.heap msg ps.cacheMinTTL ps.cacheMaxTTL ps.cacheNegMinTTL ps.cacheNegMaxTTL }, ?_, rfl, ?_, ?_⟩
  · simp only [PluginCacheResponse.Eval, hkey, hc, Option.getD_some]
    rw [if_neg hg1, if_neg hg2,
      if_neg (by simp : ¬((some store : Option Store) = none ∧ ps.cacheSize ≤ 0))]
  · simp only [Option.getD_some]
    exact storeGet_storeAdd_self store cacheKey _
  · intro k2 hk2
    simp only [Option.getD_some]
    exact storeGet_storeAdd_ne store cacheKey k2 _ hk2

/-- Witness for C6 at the concrete flush-tagged scenario. -/
theorem c6_no_flush_handling_witness :
    ∃ st2 ps2,
      PluginCacheResponse.Eval 50 st6 psFlush msgFlush =
        some (st2, ps2, none) ∧
      ps2.action = psFlush.action ∧
      storeGet (st2.cache.getD []) keyFlush =
        some { expiration := 50 + getMinTTL st6.heap msgFlush
                 psFlush.cacheMinTTL psFlush.cacheMaxTTL
                 psFlush.cacheNegMinTTL psFlush.cacheNegMaxTTL,
               msg := msgFlush } ∧
      ∀ k2, k2 ≠ keyFlush →
        storeGet (st2.cache.getD []) k2 = storeGet [(key1, cached1)] k2 :=
  c6_no_flush_handling 50 st6 psFlush msgFlush keyFlush [(key1, cached1)]
    rfl (by decide) (by decide) rfl

/-- C6 counterexample: with flush enabled, a response whose qname is
`q1`'s name prefixed by the 7-byte `flush\@` tag is processed by the
writer; the entry under the stripped qname's key (`key1`) is not
removed, a new entry is inserted under the full qname's key, and
`action` stays `pass` instead of becoming `flush`. -/
theorem c6_counterexample :
    psFlush.flushEnabled = true ∧
    qFlush.name.take 7 = flushTag ∧
    keyFlush ≠ key1 ∧
    (PluginCacheResponse.Eval 50 st6 psFlush msgFlush).map
        (fun r => ((storeGet (r.1.cache.getD []) key1).isSome,
          (storeGet (r.1.cache.getD []) keyFlush).isSome, r.2.1.action)) =
      some (true, true, PluginsReturnCode.pass) :=
  ⟨rfl, by decide, by decide, by decide⟩

/-- C7: the writer plugin returns before computing a key or touching
the store whenever the response is inadmissible (truncation bit set, or
RCODE outside NOERROR/NXDOMAIN/NOTAUTH) — even a message with an empty
question section returns normally, showing no key is computed — and
every store the writer produces contains only admissible responses. -/
theorem c7_admissibility
    (now : Int) (st : CacheState) (ps : PluginsState) (msg : Msg) :
    (¬ admissibleMsg msg →
      PluginCacheResponse.Eval now st ps msg = some (st, ps, none)) ∧
    (∀ st2 ps2 e, cacheAdmissible st.cache →
      PluginCacheResponse.Eval now st ps msg = some (st2, ps2, e) →
      cacheAdmissible st2.cache) := by
  constructor
  · intro hbad
    unfold admissibleMsg at hbad
    by_cases h1 : msg.rcode ≠ 0 ∧ msg.rcode ≠ 3 ∧ msg.rcode ≠ 9
    · simp only [PluginCacheResponse.Eval]
      rw [if_pos h1]
    · have hrc : msg.rcode = 0 ∨ msg.rcode = 3 ∨ msg.rcode = 9 := by tauto
      have htr : msg.truncated = true := by
        rcases Bool.eq_false_or_eq_true msg.truncated with h | h
        · exact h
        · exact absurd ⟨hrc, h⟩ hbad
      simp only [PluginCacheResponse.Eval]
      rw [if_neg h1, if_pos htr]
  · intro st2 ps2 e hadm heval
    by_cases h1 : msg.rcode ≠ 0 ∧ msg.rcode ≠ 3 ∧ msg.rcode ≠ 9
    · simp only [PluginCacheResponse.Eval] at heval
      rw [if_pos h1] at heval
      simp only [Option.some.injEq, Prod.mk.injEq] at heval
      obtain ⟨h2, -⟩ := heval
      rw [← h2]
      exact hadm
    · by_cases h2 : msg.truncated = true
      · simp only [PluginCacheResponse.Eval] at heval
        rw [if_neg h1, if_pos h2] at heval
        simp only [Option.some.injEq, Prod.mk.injEq] at heval
        obtain ⟨h3, -⟩ := heval
        rw [← h3]
        exact hadm
      · have hrc : msg.rcode = 0 ∨ msg.rcode = 3 ∨ msg.rcode = 9 := by tauto
        have htr : msg.truncated = false := by simpa using h2
        simp only [PluginCacheResponse.Eval] at heval
        rw [if_neg h1, if_neg h2] at heval
        cases hk : computeCacheKey (some ps) msg with
        | none =>
          rw [hk] at heval
          exact Option.noConfusion heval
        | some cacheKey =>
          rw [hk] at heval
          simp only [] at heval
          by_cases hcfg : st.cache = none ∧ ps.cacheSize ≤ 0
          · rw [if_pos hcfg] at heval
            simp only [Option.some.injEq, Prod.mk.injEq] at heval
            obtain ⟨h3, -⟩ := heval
            rw [← h3]
            exact hadm
          · rw [if_neg hcfg] at heval
            simp only [Option.some.injEq, Prod.mk.injEq] at heval
            obtain ⟨h3, -⟩ := heval
            rw [← h3]
            intro e2 he2
            rcases mem_storeAdd he2 with h | h
            · rw [h]
              exact ⟨hrc, htr⟩
            · cases hc2 : st.cache with
              | none =>
                rw [hc2] at h
                exact absurd h (by simp)
              | some s =>
                rw [hc2] at h hadm
                exact hadm e2 h

/-- Witness for C7: a SERVFAIL response (even with an empty question
section) is rejected without touching the empty state. -/
theorem c7_admissibility_witness :
    PluginCacheResponse.Eval 0 stEmpty psBase msgNoQ =
      some (stEmpty, psBase, none) :=
  (c7_admissibility 0 stEmpty psBase msgNoQ).1 (by decide)

/-- Insertion never removes a key from the store's domain. -/
theorem storeGet_storeAdd_isSome (store : Store) (k k2 : List Nat)
    (v : CachedResponse) (h : (storeGet store k2).isSome = true) :
    (storeGet (storeAdd store k v) k2).isSome = true := by
  by_cases hk : k2 = k
  · rw [hk, storeGet_storeAdd_self]
    rfl
  · rw [storeGet_storeAdd_ne store k k2 v hk]
    exact h

/-- One decode-loop insertion (a plain add, doubled for a frequent
record) keeps every key already present. -/
theorem storeGet_loadStep_isSome (base : Store) (k0 k : List Nat)
    (v : CachedResponse) (fr : Bool)
    (h : (storeGet base k).isSome = true) :
    (storeGet (if fr = true then storeAdd (storeAdd base k0 v) k0 v
        else storeAdd base k0 v) k).isSome = true := by
  rcases fr with _ | _
  · rw [if_neg (by simp)]
    exact storeGet_storeAdd_isSome base k0 k v h
  · rw [if_pos rfl]
    exact storeGet_storeAdd_isSome _ k0 k v (storeGet_storeAdd_isSome base k0 k v h)

/-- One decode-loop insertion puts its own key in the store. -/
theorem storeGet_loadStep_self (base : Store) (k0 : List Nat)
    (v : CachedResponse) (fr : Bool) :
    (storeGet (if fr = true then storeAdd (storeAdd base k0 v) k0 v
        else storeAdd base k0 v) k0).isSome = true := by
  rcases fr with _ | _
  · rw [if_neg (by simp), storeGet_storeAdd_self]
    rfl
  · rw [if_pos rfl, storeGet_storeAdd_self]
    rfl

/-- The decode loop of `LoadCache` admits every record it can decode
and unpack: when each item decodes to a record whose packet unpacks to
a message with a nonempty question section, the loop succeeds, keeps
every key already present, and ends with every record's recomputed key
present in the store. -/
theorem loadLoop_admits (startTime : Int)
    (items : List (Option SavedResponse)) (st : CacheState)
    (hok : ∀ it ∈ items, ∃ sr m, it = some sr ∧ sr.packet = some m ∧
      m.question ≠ []) :
    ∃ st2, loadLoop startTime st items = some (st2, none) ∧
      (∀ k, (storeGet (st.cache.getD []) k).isSome = true →
        (storeGet (st2.cache.getD []) k).isSome = true) ∧
      (∀ it ∈ items, ∀ sr m k, it = some sr → sr.packet = some m →
        computeCacheKey none m = some k →
        (storeGet (st2.cache.getD []) k).isSome = true) := by
  induction items generalizing st with
  | nil =>
    exact ⟨st, rfl, fun k h => h, fun it hit => absurd hit (List.not_mem_nil it)⟩
  | cons it rest ih =>
    obtain ⟨sr, m, hit, hpk, hqne⟩ := hok it (List.mem_cons_self it rest)
    subst hit
    obtain ⟨k0, hk0⟩ : ∃ k0, computeCacheKey none m = some k0 := by
      unfold computeCacheKey
      rcases hq : m.question with _ | ⟨q, qs⟩
      · exact absurd hq hqne
      · exact ⟨_, rfl⟩
    obtain ⟨st2, hrun, hmono, hall⟩ :=
      ih _ (fun it2 hit2 => hok it2 (List.mem_cons_of_mem _ hit2))
    refine ⟨st2, ?_, ?_, ?_⟩
    · simp only [loadLoop, hpk, hk0]
      exact hrun
    · intro k hkin
      exact hmono k (storeGet_loadStep_isSome (st.cache.getD []) k0 k
        ⟨sr.expiration, m⟩ sr.frequent hkin)
    · intro it2 hit2 sr2 m2 k2 hit2eq hpk2 hk2
      rcases List.mem_cons.mp hit2 with h | h
      · rw [h] at hit2eq
        obtain rfl : sr = sr2 := Option.some.inj hit2eq
        rw [hpk] at hpk2
        obtain rfl : m = m2 := Option.some.inj hpk2
        rw [hk0] at hk2
        obtain rfl : k0 = k2 := Option.some.inj hk2
        exact hmono k0 (storeGet_loadStep_self (st.cache.getD []) k0
          ⟨sr.expiration, m⟩ sr.frequent)
      · exact hall it2 h sr2 m2 k2 hit2eq hpk2 hk2

/-- C8 (amended): snapshot load has no admission filter — every record
that decodes and unpacks is added to the store, regardless of its
expiration relative to the load-start instant and regardless of any
forced-cache configuration. -/
theorem c8_load_admits_all (startTime : Int) (st : CacheState)
    (hdr : CacheFileHeader) (items : List (Option SavedResponse))
    (cacheSize : Int)
    (hv : hdr.protoVersion = 1) (hn : hdr.itemsCount > 0)
    (hcfg : ¬ (st.cache = none ∧ cacheSize ≤ 0))
    (hok : ∀ it ∈ items, ∃ sr m, it = some sr ∧ sr.packet = some m ∧
      m.question ≠ []) :
    ∃ st2, CachedResponses.LoadCache startTime st (some hdr) items cacheSize =
        some (st2, none) ∧
      ∀ it ∈ items, ∀ sr m k, it = some sr → sr.packet = some m →
        computeCacheKey none m = some k →
        (storeGet (st2.cache.getD []) k).isSome = true := by
  obtain ⟨st2, hrun, -, hall⟩ :=
    loadLoop_admits startTime items { st with cache := some (st.cache.getD []) } hok
  refine ⟨st2, ?_, hall⟩
  simp only [CachedResponses.LoadCache]
  rw [if_neg (by simp [hv]), if_pos hn, if_neg hcfg]
  exact hrun

/-- Witness for C8: the expired snapshot record `saved1` is loaded into
an empty state and its key is admitted. -/
theorem c8_load_admits_all_witness :
    ∃ st2, CachedResponses.LoadCache 100 stEmpty (some hdr1) [some saved1] 16 =
        some (st2, none) ∧
      ∀ it ∈ [some saved1], ∀ sr m k, it = some sr → sr.packet = some m →
        computeCacheKey none m = some k →
        (storeGet (st2.cache.getD []) k).isSome = true :=
  c8_load_admits_all 100 stEmpty hdr1 [some saved1] 16 rfl (by decide)
    (by decide)
    (by
      intro it hit
      rw [List.mem_singleton] at hit
      rw [hit]
      exact ⟨saved1, msg1, rfl, rfl, by decide⟩)

/-- C8 counterexample: `saved1` expired at instant 0 and the load
starts at instant 100 (and no forced-cache configuration is consulted),
so the claimed admission filter would skip it; the code loads it and
its key is present in the store afterwards. -/
theorem c8_counterexample :
    saved1.expiration ≤ (100 : Int) ∧
    (CachedResponses.LoadCache 100 stEmpty (some hdr1) [some saved1] 16).map
        (fun r => ((storeGet (r.1.cache.getD []) key1).isSome, r.2)) =
      some (true, none) :=
  ⟨by decide, by decide⟩

/-- C9: a snapshot header whose `proto_version` differs from 1 makes
`LoadCache` return the unsupported-version error with the state
untouched (no entry admitted), and `Init` swallows the error so the
proxy continues with the cache it had (empty when it had none). -/
theorem c9_unsupported_version (startTime : Int) (st : CacheState)
    (hdr : CacheFileHeader) (items : List (Option SavedResponse))
    (cacheSize : Int) (hv : hdr.protoVersion ≠ 1) :
    CachedResponses.LoadCache startTime st (some hdr) items cacheSize =
      some (st, some LoadError.unsupportedVersion) ∧
    PluginCacheResponse.Init true startTime st (some hdr) items cacheSize =
      some st := by
  have h1 : CachedResponses.LoadCache startTime st (some hdr) items cacheSize =
      some (st, some LoadError.unsupportedVersion) := by
    simp only [CachedResponses.LoadCache]
    rw [if_pos hv]
  refine ⟨h1, ?_⟩
  simp [PluginCacheResponse.Init, h1]

/-- Witness for C9 at a concrete version-2 header. -/
theorem c9_unsupported_version_witness :
    CachedResponses.LoadCache 0 stEmpty (some hdrBad) [some saved1] 16 =
      some (stEmpty, some LoadError.unsupportedVersion) ∧
    PluginCacheResponse.Init true 0 stEmpty (some hdrBad) [some saved1] 16 =
      some stEmpty :=
  c9_unsupported_version 0 stEmpty hdrBad [some saved1] 16 (by decide)

/-- C10 (amended): `computeCacheKey` reads `msg.Question[0]`
unconditionally, so it is defined exactly for messages with a nonempty
question section and panics on an empty one; the reader plugin's `Eval`
computes the key first and so propagates that panic, while the writer
plugin's `Eval` reaches the key computation only after its
admissibility guards — an admissible response with an empty question
panics, but an inadmissible one returns normally. -/
theorem c10_question_precondition (ops : Option PluginsState) (msg : Msg)
    (now : Int) (st : CacheState) (ps : PluginsState) :
    ((computeCacheKey ops msg).isSome = true ↔ msg.question ≠ []) ∧
    (msg.question = [] → PluginCache.Eval now st ps msg = none) ∧
    (msg.question = [] → admissibleMsg msg →
      PluginCacheResponse.Eval now st ps msg = none) := by
  have hkey : ∀ (o : Option PluginsState), msg.question = [] →
      computeCacheKey o msg = none := by
    intro o hq
    simp [computeCacheKey, hq]
  refine ⟨?_, ?_, ?_⟩
  · constructor
    · intro h hq
      rw [hkey ops hq] at h
      exact Bool.noConfusion h
    · intro hq
      rcases hq2 : msg.question with _ | ⟨q, qs⟩
      · exact absurd hq2 hq
      · simp [computeCacheKey, hq2]
  · intro hq
    simp [PluginCache.Eval, hkey (some ps) hq]
  · intro hq hadm
    obtain ⟨hrc, htr⟩ := hadm
    have hg1 : ¬ (msg.rcode ≠ 0 ∧ msg.rcode ≠ 3 ∧ msg.rcode ≠ 9) := by tauto
    simp only [PluginCacheResponse.Eval, hkey (some ps) hq]
    rw [if_neg hg1, if_neg (by simp [htr])]

/-- Witness for C10: an admissible response with an empty question
section makes both plugins' `Eval` panic. -/
theorem c10_question_precondition_witness :
    PluginCache.Eval 0 stEmpty psBase msgNoQA = none ∧
    PluginCacheResponse.Eval 0 stEmpty psBase msgNoQA = none :=
  ⟨(c10_question_precondition (some psBase) msgNoQA 0 stEmpty psBase).2.1 rfl,
   (c10_question_precondition (some psBase) msgNoQA 0 stEmpty psBase).2.2 rfl
     (by decide)⟩

/-- C10 counterexample: the writer plugin's `Eval`, called on an
inadmissible (SERVFAIL) response with an empty question section,
returns normally without reading `Question[0]`, so the claim that both
`Eval` entry points unconditionally require a nonempty question fails. -/
theorem c10_counterexample :
    msgNoQ.question = [] ∧
    PluginCacheResponse.Eval 0 stEmpty psBase msgNoQ =
      some (stEmpty, psBase, none) :=
  ⟨rfl, by decide⟩

end DnscryptCache
